import Mathlib

/-!
Verification of the Verba RAG backend core (goldenverba) against its
natural-language specification.  Python functions are shallowly embedded as
executable Lean definitions: dictionaries become insertion-ordered
association lists, `asyncpg` rows become structures, raised exceptions
become `Except`/`Option String` error values, and the database state is
threaded explicitly.  Real-valued quantities coming back from the store
(cosine distances, text-search ranks) are modelled as rationals supplied by
the external store, whose internals are out of scope.
-/

/-! ## Configuration model (goldenverba/postgresql_verba_manager.py)

`verify_config(a, b)` walks two configuration trees in lock-step.  A tree is
a dict keyed by stage name; each stage holds a `components` dict; each
component holds a `config` dict of settings; each setting has a
`description`, a list of allowed `values` and a current `value`.  Python
dicts are insertion-ordered, so each dict is modelled as an association
list, and `zip(a, b)` over two dicts walks the two key sequences in order
(truncating at the shorter one, as `zip` does). -/

/-- One config option of a component: `{"description": …, "values": […],
"value": …}`.  Only `description` and `values` are ever compared by
`verify_config`; `value` is the user-customised current value. -/
structure Setting where
  description : String
  values : List String
  value : String
deriving Repr, DecidableEq

/-- One component entry: only its `config` dict is inspected. -/
structure RagComponent where
  config : List (String × Setting)
deriving Repr, DecidableEq

/-- One pipeline stage: its `components` dict plus the selected component
(never inspected by `verify_config`). -/
structure StageConfig where
  components : List (String × RagComponent)
  selected : String
deriving Repr, DecidableEq

/-- A whole configuration tree: stage name ↦ stage config. -/
abbrev RagConfig := List (String × StageConfig)

/-- Lexicographic comparison of character lists by code point, with a
proper prefix ordered first — the `<=` of Python on `str`. -/
def charsLe : List Char → List Char → Bool
  | [], _ => true
  | _ :: _, [] => false
  | a :: as, b :: bs =>
    if a < b then true
    else if b < a then false
    else charsLe as bs

/-- The `<=` of Python on strings. -/
def strLeB (a b : String) : Bool := charsLe a.data b.data

/-- Python `sorted` on a list of strings (ascending lexicographic, stable). -/
def sortedStr (l : List String) : List String :=
  List.insertionSort (fun a b => strLeB a b = true) l

/-- Inner loop of `verify_config`: lock-step walk over two `config` dicts.
Mismatched option key, differing `description`, or differing
`sorted(values)` fails; the current `value` is never consulted. -/
def checkOptions : List (String × Setting) → List (String × Setting) → Bool
  | [], _ => true
  | _, [] => true
  | (ka, sa) :: as, (kb, sb) :: bs =>
    if ka ≠ kb then false
    else if sa.description ≠ sb.description then false
    else if sortedStr sa.values ≠ sortedStr sb.values then false
    else checkOptions as bs

/-- Middle loop of `verify_config`: lock-step walk over two `components`
dicts, with the `len(a_config) != len(b_config)` guard of the source. -/
def checkComponents :
    List (String × RagComponent) → List (String × RagComponent) → Bool
  | [], _ => true
  | _, [] => true
  | (ka, ca) :: as, (kb, cb) :: bs =>
    if ka ≠ kb then false
    else if ca.config.length ≠ cb.config.length then false
    else if ¬ checkOptions ca.config cb.config then false
    else checkComponents as bs

/-- Outer loop of `verify_config`: lock-step walk over the stage keys, with
the `len(a_component) != len(b_component)` guard of the source. -/
def checkStages : RagConfig → RagConfig → Bool
  | [], _ => true
  | _, [] => true
  | (ka, sa) :: as, (kb, sb) :: bs =>
    if ka ≠ kb then false
    else if sa.components.length ≠ sb.components.length then false
    else if ¬ checkComponents sa.components sb.components then false
    else checkStages as bs

/-- `PostgreSQLVerbaManager.verify_config` (postgresql_verba_manager.py,
lines 405–472).  `demo` models `os.getenv("VERBA_PRODUCTION") == "Demo"`,
which short-circuits to compatible.  The `except`-clause of the source
(fail-closed on exceptions) is unreachable in this typed model: the walk
only reads fields that every well-typed tree has. -/
def verify_config (demo : Bool) (a b : RagConfig) : Bool :=
  if demo then true else checkStages a b

/-- Specification-level mirror of the walk in which the allowed values of each option are compared as multisets (`List.Perm`) instead of via
`sorted(·) = sorted(·)`.  Used to state what `verify_config` decides. -/
def alignedOptions : List (String × Setting) → List (String × Setting) → Prop
  | [], _ => True
  | _, [] => True
  | (ka, sa) :: as, (kb, sb) :: bs =>
    ka = kb ∧ sa.description = sb.description ∧
    sa.values.Perm sb.values ∧ alignedOptions as bs

/-- Mirror of `checkComponents` with multiset values comparison. -/
def alignedComponents :
    List (String × RagComponent) → List (String × RagComponent) → Prop
  | [], _ => True
  | _, [] => True
  | (ka, ca) :: as, (kb, cb) :: bs =>
    ka = kb ∧ ca.config.length = cb.config.length ∧
    alignedOptions ca.config cb.config ∧ alignedComponents as bs

/-- Mirror of `checkStages` with multiset values comparison. -/
def alignedStages : RagConfig → RagConfig → Prop
  | [], _ => True
  | _, [] => True
  | (ka, sa) :: as, (kb, sb) :: bs =>
    ka = kb ∧ sa.components.length = sb.components.length ∧
    alignedComponents sa.components sb.components ∧ alignedStages as bs

/-! ## Connection-pool manager (goldenverba/postgresql_verba_manager.py)

`PostgreSQLClientManager` keeps `self.pools : dict[str, dict]` mapping a
credential hash to `{"pool": …, "timestamp": …}`.  Pools are modelled by
numeric identities handed out by a counter; a separate `closed` list
records which pool identities have had their underlying pool closed
(`pool._closed`).  Timestamps are minutes as naturals. -/

/-- `goldenverba.server.types.Credentials` (a plain data model; the file
defining it is not under src/, but its three fields are fixed by every
caller, e.g. server/cli.py). -/
structure Credentials where
  deployment : String
  url : String
  key : String
deriving Repr, DecidableEq

/-- `PostgreSQLClientManager.hash_credentials` (lines 785–787):
`f"{credentials.deployment}:{credentials.url}:{credentials.key}"`. -/
def hash_credentials (c : Credentials) : String :=
  c.deployment ++ ":" ++ c.url ++ ":" ++ c.key

/-- One cache entry: the pool handle (as an identity) and its creation
timestamp. -/
structure PoolEntry where
  poolId : Nat
  timestamp : Nat
deriving Repr, DecidableEq

/-- The mutable state of the manager: the `self.pools` dict (insertion-ordered
association list), a counter producing fresh pool identities, the set of
pool identities whose underlying pool is closed, and `self.last_cleanup`. -/
structure ClientState where
  pools : List (String × PoolEntry)
  nextPoolId : Nat
  closed : List Nat
  lastCleanup : Nat
deriving Repr, DecidableEq

/-- `not s or s.strip() == ""`: the string is empty or all whitespace. -/
def isBlank (s : String) : Bool := s.data.all Char.isWhitespace

/-- `self.max_time` (30 minutes). -/
def max_time : Nat := 30

/-- `self.cleanup_interval` (5 minutes). -/
def cleanup_interval : Nat := 5

/-- `PostgreSQLClientManager.connect` (lines 789–813).  Empty or
whitespace-only url/key fall back to environment defaults (the
`RAILWAY_POSTGRES_URL` / `DATABASE_URL` / `RAILWAY_POSTGRES_PASSWORD`
chain, collapsed into `envUrl`/`envKey`).  A cached entry is returned
unconditionally — even if its pool has been closed.  Otherwise a fresh
pool is created and cached (pool creation is modelled as succeeding; on a
creation failure the source caches nothing and re-raises, leaving the
state unchanged). -/
def connect (st : ClientState) (cred : Credentials) (envUrl envKey : String)
    (now : Nat) : ClientState × Nat :=
  let url := if isBlank cred.url then envUrl else cred.url
  let key := if isBlank cred.key then envKey else cred.key
  let c := { cred with url := url, key := key }
  let h := hash_credentials c
  match st.pools.find? (fun p => p.1 = h) with
  | some p => (st, p.2.poolId)
  | none =>
    ({ st with
        pools := st.pools ++ [(h, ⟨st.nextPoolId, now⟩)],
        nextPoolId := st.nextPoolId + 1 },
      st.nextPoolId)

/-- `PostgreSQLClientManager.disconnect` (lines 815–819): closes every
cached pool.  The source contains no `self.pools.clear()`, so the cache
entries survive with their now-closed pools (contrast
`ClientManager.disconnect` in unified_verba_manager.py, which does call
`self.pools.clear()`). -/
def disconnect (st : ClientState) : ClientState :=
  { st with closed := st.closed ++ st.pools.map (fun p => p.2.poolId) }

/-- The `for cred_hash in pools_to_remove` loop of `clean_up`:
`await self.manager.disconnect(self.pools[cred_hash]["pool"])` then
`del self.pools[cred_hash]`.  Looking up an already-removed hash raises a
`KeyError` (which can happen, since an entry that is both over-age and
closed is appended to `pools_to_remove` twice). -/
def removePools : List String → List (String × PoolEntry) → List Nat →
    Except String (List (String × PoolEntry) × List Nat)
  | [], pools, closed => .ok (pools, closed)
  | h :: rest, pools, closed =>
    match pools.find? (fun p => p.1 = h) with
    | none => .error "KeyError"
    | some p =>
      removePools rest (pools.filter (fun q => q.1 ≠ h)) (closed ++ [p.2.poolId])

/-- `PostgreSQLClientManager.clean_up` (lines 821–846): a no-op within
`cleanup_interval` minutes of the previous sweep; otherwise collects every
entry older than `max_time` minutes or whose pool reports itself closed,
closes and deletes those entries, and stamps `last_cleanup`. -/
def clean_up (st : ClientState) (now : Nat) : Except String ClientState :=
  if now - st.lastCleanup < cleanup_interval then .ok st
  else
    let toRemove := st.pools.flatMap (fun p =>
      (if now - p.2.timestamp > max_time then [p.1] else []) ++
      (if p.2.poolId ∈ st.closed then [p.1] else []))
    match removePools toRemove st.pools st.closed with
    | .error e => .error e
    | .ok (pools', closed') =>
      .ok { st with pools := pools', closed := closed', lastCleanup := now }

/-! ## VectorStore (goldenverba/components/postgresql_manager.py)

`PostgreSQLManager` issues SQL over asyncpg.  Tables become lists of row
structures; `gen_random_uuid()` becomes a fresh-identifier counter; a SQL
command that the server rejects becomes an `Except.error`.  Vector values
are rationals (the pgvector column stores floats; their arithmetic belongs to
the store, not to this core). -/

/-- A chunk as handed to `import_document`
(`goldenverba.components.document.Chunk`; that file is not under src/, the
fields are the ones `import_document` reads).  `vector = none` models a
chunk object without a (truthy) vector. -/
structure Chunk where
  text : String
  content_without_overlap : String
  chunk_id : Nat
  chunk_index : Nat
  vector : Option (List ℚ)
deriving Repr, DecidableEq

/-- A document as handed to `import_document`
(`goldenverba.components.document.Document`; fields as read by the
manager). -/
structure Document where
  title : String
  text : String
  labels : List String
  chunks : List Chunk
deriving Repr, DecidableEq

/-- A row of the `verba_documents` table (the columns this development
needs). -/
structure DocRow where
  uuid : Nat
  title : String
  content : String
  labels : List String
  embedder : String
deriving Repr, DecidableEq

/-- A row of the `verba_chunks` table.  The `vector vector(1536)` column is
nullable; `ON DELETE CASCADE` ties `document_uuid` to `verba_documents`. -/
structure ChunkRow where
  uuid : Nat
  document_uuid : Nat
  content : String
  content_without_overlap : String
  chunk_id : Nat
  chunk_index : Nat
  vector : Option (List ℚ)
  embedder : String
deriving Repr, DecidableEq

/-- A row of the `verba_suggestions` table. -/
structure SuggestionRow where
  uuid : Nat
  query : String
  count : Nat
  updated_at : Nat
deriving Repr, DecidableEq

/-- The persistent store: the three tables this development needs plus the
fresh-uuid counter standing for `gen_random_uuid()`. -/
structure Store where
  documents : List DocRow
  chunks : List ChunkRow
  suggestions : List SuggestionRow
  nextUuid : Nat
deriving Repr, DecidableEq

/-- The dimensionality declared by `vector(1536)` in `_init_schema`. -/
def vectorDim : Nat := 1536

/-- The value bound for the `vector` column by `import_document`:
`chunk.vector if hasattr(chunk, ...) and chunk.vector else None` (the
attribute name is the word vector in quotes) — an
absent vector, and also an empty (falsy) list, are stored as SQL NULL,
never as a zero vector. -/
def storedVector (v : Option (List ℚ)) : Option (List ℚ) :=
  match v with
  | none => none
  | some [] => none
  | some l => some l

/-- Inserting one chunk row inside the transaction.  pgvector rejects a
non-null vector whose dimensionality differs from the declared
`vector(1536)` column, failing the INSERT. -/
def insertChunkRow (s : Store) (docUuid : Nat) (c : Chunk) (embedder : String) :
    Except String Store :=
  match storedVector c.vector with
  | some l =>
    if l.length ≠ vectorDim then
      .error "expected 1536 dimensions"
    else
      .ok { s with
        chunks := s.chunks ++
          [⟨s.nextUuid, docUuid, c.text, c.content_without_overlap,
            c.chunk_id, c.chunk_index, some l, embedder⟩],
        nextUuid := s.nextUuid + 1 }
  | none =>
    .ok { s with
      chunks := s.chunks ++
        [⟨s.nextUuid, docUuid, c.text, c.content_without_overlap,
          c.chunk_id, c.chunk_index, none, embedder⟩],
      nextUuid := s.nextUuid + 1 }

/-- The `for chunk in document.chunks` insert loop of `import_document`. -/
def insertChunks (docUuid : Nat) (embedder : String) :
    Store → List Chunk → Except String Store
  | s, [] => .ok s
  | s, c :: cs =>
    match insertChunkRow s docUuid c embedder with
    | .error e => .error e
    | .ok s' => insertChunks docUuid embedder s' cs

/-- The body of `async with conn.transaction():` in `import_document`
(postgresql_manager.py, lines 180–219): insert the document row, then every
chunk row. -/
def importTx (s : Store) (doc : Document) (embedder : String) :
    Except String Store :=
  let docUuid := s.nextUuid
  let s1 : Store :=
    { s with
      documents := s.documents ++
        [⟨docUuid, doc.title, doc.text, doc.labels, embedder⟩],
      nextUuid := s.nextUuid + 1 }
  insertChunks docUuid embedder s1 doc.chunks

/-- `PostgreSQLManager.import_document`: the surrounding transaction makes
the insert batch all-or-nothing — on any failure the transaction rolls
back and the store is left as it was; the raised error propagates. -/
def import_document (s : Store) (doc : Document) (embedder : String) :
    Store × Option String :=
  match importTx s doc embedder with
  | .ok s' => (s', none)
  | .error e => (s, some e)

/-- The chunk rows that a successful `import_document` appends: fresh uuids
`base+1, base+2, …` (the document row consumed `base`), with the null-vector
rule applied to each chunk. -/
def expectedChunkRows (base docUuid : Nat) (embedder : String) :
    List Chunk → List ChunkRow
  | [] => []
  | c :: cs =>
    ⟨base, docUuid, c.text, c.content_without_overlap, c.chunk_id,
      c.chunk_index, storedVector c.vector, embedder⟩ ::
    expectedChunkRows (base + 1) docUuid embedder cs

/-- `PostgreSQLManager.exist_document_name`:
`SELECT uuid FROM verba_documents WHERE title = $1` via `fetchval` — the
uuid of the first matching row, if any. -/
def exist_document_name (s : Store) (title : String) : Option Nat :=
  (s.documents.find? (fun d => d.title = title)).map (fun d => d.uuid)

/-- `PostgreSQLManager.delete_document` (lines 243–248):
`DELETE FROM verba_documents WHERE uuid = $1`; the
`REFERENCES verba_documents(uuid) ON DELETE CASCADE` clause of
`verba_chunks` removes the chunks of the document with it. -/
def delete_document (s : Store) (docUuid : Nat) : Store :=
  { s with
    documents := s.documents.filter (fun d => d.uuid ≠ docUuid),
    chunks := s.chunks.filter (fun c => c.document_uuid ≠ docUuid) }

/-- `PostgreSQLVerbaManager.process_single_document`
(postgresql_verba_manager.py, lines 188–278; the duplicate handling is
lines 213–220).  The chunking/embedding stages transform only the document
(not the store) and are modelled as already applied to `doc`.  A duplicate
title without overwrite raises `"{title} already exists in Verba"`; with
overwrite the prior document is deleted (its chunks cascading) before the
import.  The except-handler of the method re-raises any failure as
`"Import for {filename} failed: {e}"`.  The `DELETE` commits on its own, so
on a later import failure the transaction rollback does not restore the
deleted document. -/
def process_single_document (s : Store) (doc : Document) (embedder : String)
    (overwrite : Bool) (filename : String) : Store × Option String :=
  let body : Store × Option String :=
    match exist_document_name s doc.title with
    | some uid =>
      if !overwrite then (s, some (doc.title ++ " already exists in Verba"))
      else import_document (delete_document s uid) doc embedder
    | none => import_document s doc embedder
  match body with
  | (s', some m) => (s', some ("Import for " ++ filename ++ " failed: " ++ m))
  | r => r

/-! ### Suggestions (`_init_schema` lines 124–140, `add_suggestion` lines
372–380)

`_init_schema` declares `verba_suggestions(uuid UUID PRIMARY KEY, query
TEXT NOT NULL, count INTEGER DEFAULT 1, …)` and
`CREATE INDEX idx_suggestions_query ON verba_suggestions(query)` — a
PLAIN, non-unique index.  The only unique constraint on the table is the
primary key. -/

/-- The column sets with a uniqueness guarantee on `verba_suggestions`, as
created by `_init_schema`: just the primary key. -/
def suggestion_unique_indexes : List (List String) := [["uuid"]]

/-- PostgreSQL accepts `ON CONFLICT (cols)` only when `cols` matches a
unique or exclusion constraint of the table. -/
def onConflictTargetValid (target : List String) : Bool :=
  suggestion_unique_indexes.contains target

/-- `PostgreSQLManager.add_suggestion`:
`INSERT INTO verba_suggestions (query, count, updated_at) VALUES ($1, 1,
NOW()) ON CONFLICT (query) DO UPDATE SET count = count + 1, updated_at =
NOW()`.  The server validates the conflict target `(query)` against the
unique constraints of the table before doing anything; on a match the statement
would upsert (increment-or-insert by exact text), otherwise it raises and
no row changes. -/
def add_suggestion (s : Store) (q : String) (now : Nat) : Except String Store :=
  if onConflictTargetValid ["query"] then
    match s.suggestions.find? (fun r => r.query = q) with
    | some r =>
      .ok { s with
        suggestions := s.suggestions.map (fun x =>
          if x.uuid = r.uuid then { x with count := x.count + 1, updated_at := now }
          else x) }
    | none =>
      .ok { s with
        suggestions := s.suggestions ++ [⟨s.nextUuid, q, 1, now⟩],
        nextUuid := s.nextUuid + 1 }
  else
    .error "there is no unique or exclusion constraint matching the ON CONFLICT specification"

/-! ### The similarity-search SQL text (`similarity_search`, lines 332–369)

The source builds the query with an f-string that is closed only after the
`LIMIT` line, so the intended string concatenation
`"… LIMIT $" + str(len(params) + 1) + ";"` is never executed: its
characters are part of the f-string literal and are sent to the server
verbatim.  The model below reproduces the exact text `conn.fetch`
receives (with the default table names interpolated). -/

/-- `where_clause` as accumulated before the fetch: `$3`/`$4` follow
`len(params)` at the moment each filter is appended. -/
def similarity_search_where (hasLabels hasDocUuids : Bool) : String :=
  "WHERE c.embedder = $2" ++
  (if hasLabels then " AND d.labels && $3" else "") ++
  (if hasDocUuids then
    (if hasLabels then " AND c.document_uuid = ANY($4)"
     else " AND c.document_uuid = ANY($3)") else "")

/-- `len(params)` at fetch time: the vector and embedder plus one per
optional filter. -/
def similarity_search_params_len (hasLabels hasDocUuids : Bool) : Nat :=
  2 + (if hasLabels then 1 else 0) + (if hasDocUuids then 1 else 0)

/-- The exact SQL text passed to `conn.fetch` by `similarity_search`
(f-string interpolation of the collection names and `where_clause`;
everything else, including the line
`LIMIT $" + str(len(params) + 1) + ";`, is literal text). -/
def similarity_search_query (hasLabels hasDocUuids : Bool) : String :=
  "\n                SELECT c.uuid, c.content, c.chunk_id, d.uuid as doc_uuid, d.title,\n                       (c.vector <=> $1::vector) as distance\n                FROM verba_chunks c\n                JOIN verba_documents d ON c.document_uuid = d.uuid\n                "
  ++ similarity_search_where hasLabels hasDocUuids ++
  "\n                ORDER BY distance ASC\n                LIMIT $\" + str(len(params) + 1) + \";\n            "

/-- Whether the character list starting with `hay` begins with `needle`. -/
def charsStartWith : List Char → List Char → Bool
  | [], _ => true
  | _ :: _, [] => false
  | a :: as, b :: bs => a = b && charsStartWith as bs

/-- Whether `needle` occurs contiguously anywhere in `hay`. -/
def charsContain : List Char → List Char → Bool
  | [], n => n.isEmpty
  | b :: t, n => charsStartWith n (b :: t) || charsContain t n

/-- Substring test on strings (hay first). -/
def containsSub (hay needle : String) : Bool :=
  charsContain hay.data needle.data

/-! ## Railway store: vector and hybrid search
(goldenverba/components/railway_postgres_manager.py)

`hybrid_search_chunks` is the SQL function installed by `_ensure_schema`
(lines 161–201); `vector_search` is the Python method (lines 276–324).
Both range over `document_chunks` rows joined to their documents.  The
store-supplied quantities — the cosine distance `c.embedding <=>
query_vector`, the lexical match `to_tsvector(content) @@
plainto_tsquery(query_text)` and the rank `ts_rank_cd(…)` — are carried on
each row as oracle values for a fixed query, since the text
and vector internals of the SQL engine are outside this core. -/

/-- One `document_chunks` row relative to a fixed query: whether
`embedding IS NOT NULL`, the cosine distance to the query vector, the
full-text match flag and the lexical rank for the query text. -/
structure RChunk where
  id : Nat
  hasEmbedding : Bool
  dist : ℚ
  tsMatch : Bool
  rank : ℚ
deriving Repr, DecidableEq

/-- The scoring expression of `hybrid_search_chunks`:
`alpha * (1 - (c.embedding <=> query_vector)) + (1 - alpha) * ts_rank_cd(…)`. -/
def hybridScore (alpha : ℚ) (c : RChunk) : ℚ :=
  alpha * (1 - c.dist) + (1 - alpha) * c.rank

/-- The WHERE clause of `hybrid_search_chunks`: an embedded chunk that
lexically matches the query or clears the 0.3 vector-similarity floor. -/
def hybridCandidate (c : RChunk) : Bool :=
  c.hasEmbedding && (c.tsMatch || decide ((1 : ℚ) - c.dist > 3/10))

/-- The SQL function `hybrid_search_chunks(query_text, query_vector,
match_limit, alpha)`: filter, `ORDER BY score DESC`, `LIMIT match_limit`.
`ORDER BY` is modelled as a stable insertion sort on the table order. -/
def hybrid_search_chunks (corpus : List RChunk) (matchLimit : Nat) (alpha : ℚ) :
    List RChunk :=
  ((corpus.filter hybridCandidate).insertionSort
    (fun a b => hybridScore alpha a ≥ hybridScore alpha b)).take matchLimit

/-- The WHERE clause of `vector_search` (no metadata filter):
`embedding IS NOT NULL AND 1 - (embedding <=> $1) > threshold`. -/
def vectorCandidate (threshold : ℚ) (c : RChunk) : Bool :=
  c.hasEmbedding && decide ((1 : ℚ) - c.dist > threshold)

/-- `RailwayPostgresManager.vector_search(query_embedding, limit,
threshold=0.7)`: filter by the similarity threshold,
`ORDER BY c.embedding <=> $1::vector` ascending, `LIMIT limit`. -/
def vector_search (corpus : List RChunk) (limit : Nat) (threshold : ℚ) :
    List RChunk :=
  ((corpus.filter (vectorCandidate threshold)).insertionSort
    (fun a b => a.dist ≤ b.dist)).take limit

/-- The default `threshold` parameter of `vector_search`. -/
def defaultThreshold : ℚ := 7/10

/-! ## Stage managers (goldenverba/components/managers.py)

Each manager keeps a dict from component name to component instance and
wraps invocation.  The registry is modelled by its name list and the
outcome of the underlying component by an `Except` value (its computation is an
external LLM/parser call). -/

/-- `ReaderManager.load` (lines 136–171): inside the `try`, an unknown
name raises `"Reader {reader} not found"`; the `except`-clause re-raises
anything as `"Reader {reader} failed with: {e}"`. -/
def reader_load {α} (registry : List String) (name : String)
    (result : Except String α) : Except String α :=
  match (if registry.contains name then result
         else .error ("Reader " ++ name ++ " not found")) with
  | .ok x => .ok x
  | .error e => .error ("Reader " ++ name ++ " failed with: " ++ e)

/-- `ChunkerManager.chunk` (lines 180–212): an unknown name raises
`"{chunker} Chunker not found"`; the `except`-clause is `raise e`, passing
the underlying exception through unchanged. -/
def chunker_chunk {α} (registry : List String) (name : String)
    (result : Except String α) : Except String α :=
  if registry.contains name then result
  else .error (name ++ " Chunker not found")

/-- `EmbeddingManager.embed` (lines 221–253): same shape as the chunker —
`"{embedder} Embedder not found"`, underlying exceptions re-raised
unchanged by `raise e`. -/
def embedding_embed {α} (registry : List String) (name : String)
    (result : Except String α) : Except String α :=
  if registry.contains name then result
  else .error (name ++ " Embedder not found")

/-- `RetrieverManager.retrieve` (lines 262–280): `"{retriever} Retriever
not found"`, underlying exceptions re-raised unchanged. -/
def retriever_retrieve {α} (registry : List String) (name : String)
    (result : Except String α) : Except String α :=
  if registry.contains name then result
  else .error (name ++ " Retriever not found")

/-- `GeneratorManager.generate` (lines 289–308): `"{generator} Generator
not found"`, underlying exceptions re-raised unchanged. -/
def generator_generate {α} (registry : List String) (name : String)
    (result : Except String α) : Except String α :=
  if registry.contains name then result
  else .error (name ++ " Generator not found")

/-! ## Multi-document import aggregation
(goldenverba/postgresql_verba_manager.py, `import_document` lines 131–187)

After the reader yields `documents`, one `process_single_document` task is
spawned per document and gathered with `return_exceptions=True`: every
task runs to completion and contributes its own outcome, the failure of
a sibling cancels nothing.  The branch chain then counts successes, reports
the count, and raises only in the zero-success branches. -/

/-- `asyncio.gather(*tasks, return_exceptions=True)`: the outcome list has
one entry per document, each computed from that document alone. -/
def gatherReturnExceptions {δ} (docs : List δ) (run : δ → Except String Unit) :
    List (Except String Unit) :=
  docs.map run

/-- `sum(1 for result in results if not isinstance(result, Exception))`. -/
def successful_tasks (results : List (Except String Unit)) : Nat :=
  results.countP (fun r => match r with | .ok _ => true | .error _ => false)

/-- The `if successful_tasks > 1 / elif == 1 / elif … / else` chain of
`import_document`: the reported success count paired with the raised
exception message, if one is raised.  The third branch re-raises the lone
own exception of the lone task; the else branch raises the aggregate
message. -/
def importAggregate (results : List (Except String Unit)) : Nat × Option String :=
  let n := successful_tasks results
  if n > 1 then (n, none)
  else if n = 1 then (n, none)
  else
    match results with
    | [.error e] => (n, some e)
    | _ =>
      (n, some ("No documents imported " ++ toString n ++ " of " ++
        toString results.length ++ " successful tasks"))

/-! # Theorems -/

/-! ## Sorting facts used throughout -/

/-- `charsLe` is total. -/
theorem charsLe_total : ∀ a b, charsLe a b = true ∨ charsLe b a = true := by
  intro a
  induction a with
  | nil => intro b; left; rfl
  | cons x as ih =>
    intro b
    cases b with
    | nil => right; rfl
    | cons y bs =>
      rcases lt_trichotomy x y with h | h | h
      · left; simp [charsLe, h]
      · subst h
        rcases ih bs with h' | h'
        · left; simp [charsLe, lt_irrefl, h']
        · right; simp [charsLe, lt_irrefl, h']
      · right; simp [charsLe, h]

/-- `charsLe` is transitive. -/
theorem charsLe_trans :
    ∀ a b c, charsLe a b = true → charsLe b c = true → charsLe a c = true := by
  intro a
  induction a with
  | nil => intro b c _ _; rfl
  | cons x as ih =>
    intro b c hab hbc
    cases b with
    | nil => simp [charsLe] at hab
    | cons y bs =>
      cases c with
      | nil => simp [charsLe] at hbc
      | cons z cs =>
        rcases lt_trichotomy x y with hxy | hxy | hxy
        · rcases lt_trichotomy y z with hyz | hyz | hyz
          · simp [charsLe, lt_trans hxy hyz]
          · subst hyz; simp [charsLe, hxy]
          · simp [charsLe, hyz, not_lt_of_gt hyz] at hbc
        · subst hxy
          rcases lt_trichotomy x z with hxz | hxz | hxz
          · simp [charsLe, hxz]
          · subst hxz
            simp [charsLe, lt_irrefl] at hab hbc ⊢
            exact ih _ _ hab hbc
          · simp [charsLe, hxz, not_lt_of_gt hxz] at hbc
        · simp [charsLe, hxy, not_lt_of_gt hxy] at hab

/-- `charsLe` is antisymmetric. -/
theorem charsLe_antisymm :
    ∀ a b, charsLe a b = true → charsLe b a = true → a = b := by
  intro a
  induction a with
  | nil =>
    intro b _ hba
    cases b with
    | nil => rfl
    | cons y bs => simp [charsLe] at hba
  | cons x as ih =>
    intro b hab hba
    cases b with
    | nil => simp [charsLe] at hab
    | cons y bs =>
      rcases lt_trichotomy x y with h | h | h
      · simp [charsLe, h, not_lt_of_gt h] at hba
      · subst h
        simp [charsLe, lt_irrefl] at hab hba
        rw [ih _ hab hba]
      · simp [charsLe, h, not_lt_of_gt h] at hab

/-- `strLeB` is total. -/
theorem strLeB_total (a b : String) : strLeB a b = true ∨ strLeB b a = true :=
  charsLe_total a.data b.data

/-- `strLeB` is transitive. -/
theorem strLeB_trans (a b c : String) :
    strLeB a b = true → strLeB b c = true → strLeB a c = true :=
  charsLe_trans a.data b.data c.data

/-- `strLeB` is antisymmetric. -/
theorem strLeB_antisymm (a b : String) :
    strLeB a b = true → strLeB b a = true → a = b := by
  intro h1 h2
  exact String.ext (charsLe_antisymm a.data b.data h1 h2)

/-- Two string lists have equal `sorted(·)` images exactly when they are
permutations of each other (equal as multisets). -/
theorem sortedStr_eq_iff_perm (l₁ l₂ : List String) :
    sortedStr l₁ = sortedStr l₂ ↔ l₁.Perm l₂ := by
  haveI ht : IsTotal String (fun a b => strLeB a b = true) := ⟨strLeB_total⟩
  haveI htr : IsTrans String (fun a b => strLeB a b = true) := ⟨strLeB_trans⟩
  haveI ha : IsAntisymm String (fun a b => strLeB a b = true) := ⟨strLeB_antisymm⟩
  constructor
  · intro h
    have p1 : l₁.Perm (sortedStr l₁) := (List.perm_insertionSort _ _).symm
    rw [h] at p1
    exact p1.trans (List.perm_insertionSort _ _)
  · intro h
    exact @List.eq_of_perm_of_sorted String (fun a b => strLeB a b = true) ha _ _
      (((List.perm_insertionSort _ _).trans h).trans (List.perm_insertionSort _ _).symm)
      (List.sorted_insertionSort _ _) (List.sorted_insertionSort _ _)

/-- Sorting by pointwise-equivalent relations gives the same list. -/
theorem insertionSort_rel_congr {α} (r s : α → α → Prop) [DecidableRel r]
    [DecidableRel s] (h : ∀ a b, r a b ↔ s a b) (l : List α) :
    List.insertionSort r l = List.insertionSort s l := by
  have hrs : r = s := funext fun a => funext fun b => propext (h a b)
  subst hrs
  congr 1

/-! ## C4: `verify_config` -/

/-- The option walk as a conjunction of decidable tests. -/
theorem checkOptions_cons (ka kb : String) (sa sb : Setting)
    (as bs : List (String × Setting)) :
    checkOptions ((ka, sa) :: as) ((kb, sb) :: bs) =
      (decide (ka = kb) && decide (sa.description = sb.description) &&
       decide (sortedStr sa.values = sortedStr sb.values) && checkOptions as bs) := by
  simp only [checkOptions]
  split_ifs <;> simp_all

/-- `checkOptions` decides the multiset-valued alignment of two option
dicts. -/
theorem checkOptions_iff_aligned :
    ∀ a b, checkOptions a b = true ↔ alignedOptions a b := by
  intro a
  induction a with
  | nil => intro b; simp [checkOptions, alignedOptions]
  | cons p as ih =>
    intro b
    cases b with
    | nil => simp [checkOptions, alignedOptions]
    | cons q bs =>
      obtain ⟨ka, sa⟩ := p
      obtain ⟨kb, sb⟩ := q
      rw [checkOptions_cons]
      simp [alignedOptions, ih, sortedStr_eq_iff_perm, and_assoc]

/-- The component walk as a conjunction of decidable tests. -/
theorem checkComponents_cons (ka kb : String) (ca cb : RagComponent)
    (as bs : List (String × RagComponent)) :
    checkComponents ((ka, ca) :: as) ((kb, cb) :: bs) =
      (decide (ka = kb) && decide (ca.config.length = cb.config.length) &&
       checkOptions ca.config cb.config && checkComponents as bs) := by
  simp only [checkComponents]
  split_ifs <;> simp_all

/-- `checkComponents` decides the multiset-valued alignment of two
`components` dicts. -/
theorem checkComponents_iff_aligned :
    ∀ a b, checkComponents a b = true ↔ alignedComponents a b := by
  intro a
  induction a with
  | nil => intro b; simp [checkComponents, alignedComponents]
  | cons p as ih =>
    intro b
    cases b with
    | nil => simp [checkComponents, alignedComponents]
    | cons q bs =>
      obtain ⟨ka, ca⟩ := p
      obtain ⟨kb, cb⟩ := q
      rw [checkComponents_cons]
      simp [alignedComponents, ih, checkOptions_iff_aligned, and_assoc]

/-- The stage walk as a conjunction of decidable tests. -/
theorem checkStages_cons (ka kb : String) (sa sb : StageConfig)
    (as bs : RagConfig) :
    checkStages ((ka, sa) :: as) ((kb, sb) :: bs) =
      (decide (ka = kb) &&
       decide (sa.components.length = sb.components.length) &&
       checkComponents sa.components sb.components && checkStages as bs) := by
  simp only [checkStages]
  split_ifs <;> simp_all

/-- `checkStages` decides the multiset-valued alignment of two trees. -/
theorem checkStages_iff_aligned :
    ∀ a b, checkStages a b = true ↔ alignedStages a b := by
  intro a
  induction a with
  | nil => intro b; simp [checkStages, alignedStages]
  | cons p as ih =>
    intro b
    cases b with
    | nil => simp [checkStages, alignedStages]
    | cons q bs =>
      obtain ⟨ka, sa⟩ := p
      obtain ⟨kb, sb⟩ := q
      rw [checkStages_cons]
      simp [alignedStages, ih, checkComponents_iff_aligned, and_assoc]

/-- C4 (counterexample): the claim says `verify_config` compares each
allowed values of each option "order-independently as sets" and "returns true
whenever the allowed-values lists of every option contain the same set of
elements".  Below, the two trees have identical stage keys, component
names, option keys and descriptions, differing current values, and the
values `["a", "a"]` and `["a"]` of the single option are equal as sets — yet
`verify_config` returns false, because `sorted(["a","a"]) ≠ sorted(["a"])`
distinguishes multiplicities. -/
theorem C4_counterexample :
    (["a", "a"] : List String).toFinset = (["a"] : List String).toFinset ∧
    verify_config false
      [("Chunker", ⟨[("X", ⟨[("size", ⟨"d", ["a", "a"], "1"⟩)]⟩)], "X"⟩)]
      [("Chunker", ⟨[("X", ⟨[("size", ⟨"d", ["a"], "2"⟩)]⟩)], "X"⟩)]
      = false := by
  constructor
  · decide
  · decide

/-- C4 (amended): outside demo mode, `verify_config` returns true exactly
when the lock-step walk of the two trees finds matching stage keys,
matching component names and counts, matching option keys and
descriptions, and allowed-values lists that are equal as **multisets**
(order-independent but multiplicity-sensitive); the current
`value` of each option is never consulted (the alignment predicate does
not mention it),
so trees differing only in current values on an aligned schema compare
compatible, and any difference in the value set of an option (which is in
particular a multiset difference) yields false. -/
theorem C4_verify_config_decides_multiset_alignment (a b : RagConfig) :
    verify_config false a b = true ↔ alignedStages a b := by
  simp [verify_config, checkStages_iff_aligned]

/-! ## C3: closed pools and the connection cache -/

/-- C3 (code bug): the claim says a pool closed by the disconnect-all
shutdown path is never handed out again — the next `connect` with the same
credential hash creates a fresh pool.  In the code, `disconnect` closes
every cached pool but never removes the cache entries (there is no
`self.pools.clear()`, unlike `ClientManager.disconnect` in
unified_verba_manager.py), so the very next `connect` with the same
credentials finds the hash in `self.pools` and returns the closed pool:
below, the pool returned by the second `connect` is the one created by the
first and is in the closed set, and no fresh pool is created. -/
theorem C3_connect_returns_closed_pool :
    (connect (disconnect (connect ⟨[], 0, [], 0⟩
        ⟨"PostgreSQL", "postgresql://u:p@h/db", "pw"⟩ "" "" 0).1)
      ⟨"PostgreSQL", "postgresql://u:p@h/db", "pw"⟩ "" "" 1).2 =
      (connect (⟨[], 0, [], 0⟩ : ClientState)
        ⟨"PostgreSQL", "postgresql://u:p@h/db", "pw"⟩ "" "" 0).2 ∧
    (connect (disconnect (connect ⟨[], 0, [], 0⟩
        ⟨"PostgreSQL", "postgresql://u:p@h/db", "pw"⟩ "" "" 0).1)
      ⟨"PostgreSQL", "postgresql://u:p@h/db", "pw"⟩ "" "" 1).2 ∈
      (disconnect (connect ⟨[], 0, [], 0⟩
        ⟨"PostgreSQL", "postgresql://u:p@h/db", "pw"⟩ "" "" 0).1).closed ∧
    (connect (disconnect (connect ⟨[], 0, [], 0⟩
        ⟨"PostgreSQL", "postgresql://u:p@h/db", "pw"⟩ "" "" 0).1)
      ⟨"PostgreSQL", "postgresql://u:p@h/db", "pw"⟩ "" "" 1).1 =
      disconnect (connect ⟨[], 0, [], 0⟩
        ⟨"PostgreSQL", "postgresql://u:p@h/db", "pw"⟩ "" "" 0).1 := by
  decide

/-! ## C10: injectivity of `hash_credentials` -/

/-- C10 (counterexample): `hash_credentials` joins the three fields with
`:` and no escaping, so two credential triples that differ in deployment
and url can collide — here both hash to `"a:b:c:k"` — refuting the claim
that the computed cache keys differ whenever the triples differ. -/
theorem C10_counterexample :
    hash_credentials ⟨"a:b", "c", "k"⟩ = hash_credentials ⟨"a", "b:c", "k"⟩ ∧
    (⟨"a:b", "c", "k"⟩ : Credentials) ≠ (⟨"a", "b:c", "k"⟩ : Credentials) := by
  decide

/-- Splitting a character list at a `':'` that is preceded by colon-free
text is unambiguous. -/
theorem chars_colon_split_inj : ∀ (a b x y : List Char), ':' ∉ a → ':' ∉ b →
    a ++ ':' :: x = b ++ ':' :: y → a = b ∧ x = y := by
  intro a
  induction a with
  | nil =>
    intro b x y _ hb h
    cases b with
    | nil => simpa using h
    | cons d bs =>
      simp only [List.nil_append, List.cons_append, List.cons.injEq] at h
      have hmem : (':' : Char) ∈ d :: bs := by
        rw [h.1]
        exact List.mem_cons_self d bs
      exact absurd hmem hb
  | cons c as ih =>
    intro b x y ha hb h
    cases b with
    | nil =>
      simp only [List.nil_append, List.cons_append, List.cons.injEq] at h
      have hmem : (':' : Char) ∈ c :: as := by
        rw [← h.1]
        exact List.mem_cons_self c as
      exact absurd hmem ha
    | cons d bs =>
      simp only [List.cons_append, List.cons.injEq] at h
      obtain ⟨hcd, hrest⟩ := h
      have hih := ih bs x y (fun hm => ha (List.mem_cons_of_mem _ hm))
        (fun hm => hb (List.mem_cons_of_mem _ hm)) hrest
      exact ⟨by rw [hcd, hih.1], hih.2⟩

/-- C10 (amended): `hash_credentials` is injective on credential triples
whose deployment and url contain no `':'` — then the two separators are
unambiguous and equal hashes force field-wise equality, so `connect` never
serves such a credential set a pool cached for a different one.  (With
colons in the fields — routine in PostgreSQL URLs — distinct triples can
share a hash, per the counterexample.) -/
theorem C10_hash_injective_on_colon_free (c₁ c₂ : Credentials)
    (h₁ : ':' ∉ c₁.deployment.data) (h₂ : ':' ∉ c₁.url.data)
    (h₃ : ':' ∉ c₂.deployment.data) (h₄ : ':' ∉ c₂.url.data)
    (h : hash_credentials c₁ = hash_credentials c₂) : c₁ = c₂ := by
  have hd := congrArg String.data h
  simp only [hash_credentials, String.data_append] at hd
  simp only [List.append_assoc, List.singleton_append] at hd
  obtain ⟨hdep, hrest⟩ :=
    chars_colon_split_inj c₁.deployment.data c₂.deployment.data _ _ h₁ h₃ hd
  obtain ⟨hurl, hkey⟩ :=
    chars_colon_split_inj c₁.url.data c₂.url.data _ _ h₂ h₄ hrest
  obtain ⟨d₁, u₁, k₁⟩ := c₁
  obtain ⟨d₂, u₂, k₂⟩ := c₂
  simp only [Credentials.mk.injEq]
  exact ⟨String.ext hdep, String.ext hurl, String.ext hkey⟩

/-- C10 (witness): the injectivity theorem applied at concrete colon-free
credentials. -/
theorem C10_hash_injective_witness :
    (':' ∉ ("PostgreSQL" : String).data) ∧
    (⟨"PostgreSQL", "db", "pw"⟩ : Credentials) = ⟨"PostgreSQL", "db", "pw"⟩ :=
  ⟨by decide,
    C10_hash_injective_on_colon_free ⟨"PostgreSQL", "db", "pw"⟩
      ⟨"PostgreSQL", "db", "pw"⟩ (by decide) (by decide) (by decide) (by decide)
      rfl⟩

/-! ## C1: the similarity-search SQL text -/

set_option maxRecDepth 40000 in
/-- C1 (code bug): the claim describes `similarity_search` returning at
most k scored chunks sorted by descending `1 − distance`.  The code can
never return anything: the f-string that builds the query is closed only
after the `LIMIT` line, so the SQL text sent to the server still contains
the raw Python fragment `LIMIT $" + str(len(params) + 1) + ";` (a syntax
error: `$"` is not a parameter), and it contains no placeholder
`$(len(params)+1)` for the `limit` argument that `conn.fetch` is passed —
so every call raises instead of returning scores.  (Independently, the
`ORDER BY distance ASC` has no chunk-identifier tie-break.) -/
theorem C1_similarity_search_query_malformed :
    (∀ hl hd : Bool,
      containsSub (similarity_search_query hl hd)
        "LIMIT $\" + str(len(params) + 1) + \";" = true) ∧
    (∀ hl hd : Bool,
      containsSub (similarity_search_query hl hd)
        ("$" ++ toString (similarity_search_params_len hl hd + 1)) = false) := by
  constructor
  · decide
  · decide

/-! ## C7: `add_suggestion` -/

/-- C7 (code bug): the claim says `add_suggestion` increments-or-inserts,
unique by text.  The `ON CONFLICT (query)` of the statement requires a unique
or exclusion constraint on `query`, but `_init_schema` gives
`verba_suggestions` only the `uuid` primary key and a *non-unique* index
`idx_suggestions_query` — so PostgreSQL rejects every `add_suggestion`
call and no suggestion row is ever written or incremented. -/
theorem C7_add_suggestion_always_errors (s : Store) (q : String) (now : Nat) :
    add_suggestion s q now =
      .error "there is no unique or exclusion constraint matching the ON CONFLICT specification" := by
  simp [add_suggestion, onConflictTargetValid, suggestion_unique_indexes]

/-! ## C2: atomicity of `import_document` -/

/-- The chunk-insert loop, characterised: on success it appends exactly
the expected rows and advances the uuid counter; and it succeeds exactly
when the stored vector of every chunk fits the declared dimensionality. -/
theorem insertChunks_spec : ∀ (cs : List Chunk) (s : Store) (du : Nat) (e : String),
    (∀ s', insertChunks du e s cs = .ok s' →
      s' = ⟨s.documents, s.chunks ++ expectedChunkRows s.nextUuid du e cs,
            s.suggestions, s.nextUuid + cs.length⟩) ∧
    ((∃ s', insertChunks du e s cs = .ok s') ↔
      ∀ c ∈ cs, ∀ l, storedVector c.vector = some l → l.length = vectorDim) := by
  intro cs
  induction cs with
  | nil =>
    intro s du e
    constructor
    · intro s' h
      simp only [insertChunks] at h
      cases h
      cases s
      simp [expectedChunkRows]
    · simp [insertChunks]
  | cons c cs ih =>
    intro s du e
    rcases hsv : storedVector c.vector with _ | l
    · have hrow : insertChunkRow s du c e =
          .ok ⟨s.documents,
            s.chunks ++ [⟨s.nextUuid, du, c.text, c.content_without_overlap,
              c.chunk_id, c.chunk_index, none, e⟩],
            s.suggestions, s.nextUuid + 1⟩ := by
        simp [insertChunkRow, hsv]
      have ihs := ih ⟨s.documents,
        s.chunks ++ [⟨s.nextUuid, du, c.text, c.content_without_overlap,
          c.chunk_id, c.chunk_index, none, e⟩],
        s.suggestions, s.nextUuid + 1⟩ du e
      constructor
      · intro s' h
        simp only [insertChunks, hrow] at h
        have := ihs.1 s' h
        rw [this]
        simp [expectedChunkRows, hsv, Nat.add_assoc, Nat.add_comm 1 cs.length]
      · constructor
        · rintro ⟨s', h⟩
          simp only [insertChunks, hrow] at h
          intro c' hc' l' hl'
          rcases List.mem_cons.mp hc' with hh | hh
          · subst hh
            rw [hsv] at hl'
            cases hl'
          · exact (ihs.2.mp ⟨s', h⟩) c' hh l' hl'
        · intro hall
          obtain ⟨s', h⟩ := ihs.2.mpr (fun c' hc' => hall c' (List.mem_cons_of_mem _ hc'))
          exact ⟨s', by simp only [insertChunks, hrow]; exact h⟩
    · by_cases hlen : l.length = vectorDim
      · have hrow : insertChunkRow s du c e =
            .ok ⟨s.documents,
              s.chunks ++ [⟨s.nextUuid, du, c.text, c.content_without_overlap,
                c.chunk_id, c.chunk_index, some l, e⟩],
              s.suggestions, s.nextUuid + 1⟩ := by
          simp [insertChunkRow, hsv, hlen]
        have ihs := ih ⟨s.documents,
          s.chunks ++ [⟨s.nextUuid, du, c.text, c.content_without_overlap,
            c.chunk_id, c.chunk_index, some l, e⟩],
          s.suggestions, s.nextUuid + 1⟩ du e
        constructor
        · intro s' h
          simp only [insertChunks, hrow] at h
          have := ihs.1 s' h
          rw [this]
          simp [expectedChunkRows, hsv, Nat.add_assoc, Nat.add_comm 1 cs.length]
        · constructor
          · rintro ⟨s', h⟩
            simp only [insertChunks, hrow] at h
            intro c' hc' l' hl'
            rcases List.mem_cons.mp hc' with hh | hh
            · subst hh
              rw [hsv] at hl'
              cases hl'
              exact hlen
            · exact (ihs.2.mp ⟨s', h⟩) c' hh l' hl'
          · intro hall
            obtain ⟨s', h⟩ := ihs.2.mpr (fun c' hc' => hall c' (List.mem_cons_of_mem _ hc'))
            exact ⟨s', by simp only [insertChunks, hrow]; exact h⟩
      · have hrow : insertChunkRow s du c e = .error "expected 1536 dimensions" := by
          simp [insertChunkRow, hsv, hlen]
        constructor
        · intro s' h
          simp only [insertChunks, hrow] at h
          exact Except.noConfusion h
        · constructor
          · rintro ⟨s', h⟩
            simp only [insertChunks, hrow] at h
            exact Except.noConfusion h
          · intro hall
            exact absurd (hall c (List.mem_cons_self _ _) l hsv) hlen

/-- C2: `import_document` is atomic.  On a successful import the store
gains exactly the document row and one row per chunk (with the null-vector
rule applied to the vector of each chunk); on any insert failure the
transaction rolls back and the store is returned unchanged; the import
succeeds exactly when every stored (non-null) vector has the declared
dimensionality; and a chunk without a vector is stored with a SQL NULL
vector, never a zero vector. -/
theorem C2_import_document_atomic (s : Store) (doc : Document) (e : String) :
    (∀ s', import_document s doc e = (s', none) →
      s'.documents = s.documents ++
        [⟨s.nextUuid, doc.title, doc.text, doc.labels, e⟩] ∧
      s'.chunks = s.chunks ++
        expectedChunkRows (s.nextUuid + 1) s.nextUuid e doc.chunks ∧
      s'.suggestions = s.suggestions) ∧
    (∀ s' m, import_document s doc e = (s', some m) → s' = s) ∧
    ((import_document s doc e).2 = none ↔
      ∀ c ∈ doc.chunks, ∀ l, storedVector c.vector = some l →
        l.length = vectorDim) ∧
    (∀ c : Chunk, c.vector = none → storedVector c.vector = none) := by
  have hspec := insertChunks_spec doc.chunks
    ⟨s.documents ++ [⟨s.nextUuid, doc.title, doc.text, doc.labels, e⟩],
      s.chunks, s.suggestions, s.nextUuid + 1⟩ s.nextUuid e
  rcases hins : insertChunks s.nextUuid e
      ⟨s.documents ++ [⟨s.nextUuid, doc.title, doc.text, doc.labels, e⟩],
        s.chunks, s.suggestions, s.nextUuid + 1⟩ doc.chunks with m | s₂
  · have himp : import_document s doc e = (s, some m) := by
      simp only [import_document, importTx, hins]
    refine ⟨?_, ?_, ?_, ?_⟩
    · intro s' h
      rw [himp] at h
      exact absurd (congrArg Prod.snd h) (by simp)
    · intro s' m' h
      rw [himp] at h
      have h1 : s = s' := congrArg Prod.fst h
      exact h1.symm
    · rw [himp]
      constructor
      · intro h
        exact absurd h (by simp)
      · intro hall
        obtain ⟨s', h⟩ := hspec.2.mpr hall
        rw [h] at hins
        exact Except.noConfusion hins
    · intro c hc
      simp [storedVector, hc]
  · have himp : import_document s doc e = (s₂, none) := by
      simp only [import_document, importTx, hins]
    have hs2 := hspec.1 s₂ hins
    refine ⟨?_, ?_, ?_, ?_⟩
    · intro s' h
      rw [himp] at h
      have h1 : s₂ = s' := congrArg Prod.fst h
      subst h1
      rw [hs2]
      exact ⟨rfl, rfl, rfl⟩
    · intro s' m' h
      rw [himp] at h
      exact absurd (congrArg Prod.snd h) (by simp)
    · rw [himp]
      constructor
      · intro _
        exact hspec.2.mp ⟨s₂, hins⟩
      · intro _
        rfl
    · intro c hc
      simp [storedVector, hc]

/-- C2 (witness): importing a one-chunk document without a vector into an
empty store persists the document row and a chunk row with a NULL
vector. -/
theorem C2_import_document_witness :
    (import_document ⟨[], [], [], 0⟩
      ⟨"Doc1", "text", [], [⟨"c1", "c1", 0, 0, none⟩]⟩ "openai").1.documents =
      [⟨0, "Doc1", "text", [], "openai"⟩] ∧
    (import_document ⟨[], [], [], 0⟩
      ⟨"Doc1", "text", [], [⟨"c1", "c1", 0, 0, none⟩]⟩ "openai").1.chunks =
      [⟨1, 0, "c1", "c1", 0, 0, none, "openai"⟩] ∧
    storedVector (⟨"c1", "c1", 0, 0, none⟩ : Chunk).vector = none := by
  have h := (C2_import_document_atomic ⟨[], [], [], 0⟩
      ⟨"Doc1", "text", [], [⟨"c1", "c1", 0, 0, none⟩]⟩ "openai").1
      (import_document ⟨[], [], [], 0⟩
        ⟨"Doc1", "text", [], [⟨"c1", "c1", 0, 0, none⟩]⟩ "openai").1
      (by decide)
  have h4 := (C2_import_document_atomic ⟨[], [], [], 0⟩
      ⟨"Doc1", "text", [], [⟨"c1", "c1", 0, 0, none⟩]⟩ "openai").2.2.2
      ⟨"c1", "c1", 0, 0, none⟩ rfl
  exact ⟨by simpa using h.1, by simpa [expectedChunkRows] using h.2.1, h4⟩

/-! ## C6: duplicate titles and overwrite -/

/-- C6: when a document with the same title exists, importing with
`overwrite=false` raises the duplicate error (wrapped by the handler of
the method) and returns the store unchanged — the existing document and its
chunks are untouched; with `overwrite=true` the prior document is deleted
first — after the delete no document row with its uuid and, via the
cascade, no chunk row owned by it remains — and the new document is then
inserted by `import_document` on the purged store.  With no duplicate
the ingest proceeds directly. -/
theorem C6_overwrite_semantics (s : Store) (doc : Document) (e fn : String)
    (ow : Bool) :
    match exist_document_name s doc.title, ow with
    | some _, false =>
      process_single_document s doc e false fn =
        (s, some ("Import for " ++ fn ++ " failed: " ++ doc.title ++
          " already exists in Verba"))
    | some uid, true =>
      process_single_document s doc e true fn =
        ((import_document (delete_document s uid) doc e).1,
          (import_document (delete_document s uid) doc e).2.map
            (fun m => "Import for " ++ fn ++ " failed: " ++ m)) ∧
      (∀ d ∈ (delete_document s uid).documents, d.uuid ≠ uid) ∧
      (∀ c ∈ (delete_document s uid).chunks, c.document_uuid ≠ uid)
    | none, _ =>
      process_single_document s doc e ow fn =
        ((import_document s doc e).1,
          (import_document s doc e).2.map
            (fun m => "Import for " ++ fn ++ " failed: " ++ m)) := by
  rcases hex : exist_document_name s doc.title with _ | uid
  · cases ow
    all_goals
      simp only []
      rcases himp : import_document s doc e with ⟨s', m⟩
      simp only [process_single_document, hex, himp]
      cases m <;> simp
  · cases ow
    · simp [process_single_document, hex, String.append_assoc]
    · refine ⟨?_, ?_, ?_⟩
      · rcases himp : import_document (delete_document s uid) doc e with ⟨s', m⟩
        simp only [process_single_document, hex, himp]
        cases m <;> simp
      · intro d hd
        simp only [delete_document, List.mem_filter] at hd
        simpa using hd.2
      · intro c hc
        simp only [delete_document, List.mem_filter] at hc
        simpa using hc.2

/-! ## C5: hybrid search vs. pure vector search -/

/-- C5 (counterexample): the claim says hybrid search with `alpha = 1.0`
returns the same chunks in the same ranking as pure vector similarity
search for the same vector and limit.  A chunk at similarity 0.5 with no
lexical match passes the hybrid candidate filter (0.5 > 0.3) but not
the threshold filter of `vector_search` (default 0.7), so hybrid search
returns it while
`vector_search` returns nothing. -/
theorem C5_counterexample :
    hybrid_search_chunks [⟨1, true, 1/2, false, 0⟩] 10 1 ≠
      vector_search [⟨1, true, 1/2, false, 0⟩] 10 defaultThreshold := by
  have h1 : hybridCandidate ⟨1, true, 1/2, false, 0⟩ = true := by
    simp only [hybridCandidate]
    norm_num
  have h2 : vectorCandidate defaultThreshold ⟨1, true, 1/2, false, 0⟩ = false := by
    simp only [vectorCandidate, defaultThreshold]
    norm_num
  simp only [hybrid_search_chunks, vector_search, List.filter_cons,
    List.filter_nil, h1, h2, if_true, if_false, ite_true, ite_false]
  simp [List.insertionSort, List.orderedInsert]

/-- The hybrid score at `alpha = 1` is the vector similarity. -/
theorem hybridScore_one (c : RChunk) : hybridScore 1 c = 1 - c.dist := by
  unfold hybridScore
  ring

/-- The hybrid score at `alpha = 0` is the lexical rank. -/
theorem hybridScore_zero (c : RChunk) : hybridScore 0 c = c.rank := by
  unfold hybridScore
  ring

/-- C5 (amended): with `alpha = 1.0` the hybrid score reduces to the
vector similarity `1 − distance` and with `alpha = 0.0` to the lexical
rank alone, so the ranking criteria are as claimed; but the two functions
filter different candidate sets — hybrid admits a chunk when it lexically
matches **or** clears the 0.3 similarity floor, `vector_search` when it
clears its threshold (default 0.7).  The two searches return identical
lists whenever the two filters agree on every chunk of the corpus; and
when the limit covers the whole corpus, identical lists conversely force
the filters to agree on every chunk — so at a covering limit they
coincide exactly when the filters agree, and in general they differ (see
the counterexample, where a chunk passes the 0.3 floor but not the 0.7
threshold). -/
theorem C5_alpha_extremes (corpus : List RChunk) (k : Nat) :
    ((∀ c ∈ corpus, hybridCandidate c = vectorCandidate defaultThreshold c) →
      hybrid_search_chunks corpus k 1 = vector_search corpus k defaultThreshold) ∧
    (corpus.length ≤ k →
      hybrid_search_chunks corpus k 1 = vector_search corpus k defaultThreshold →
      ∀ c ∈ corpus, hybridCandidate c = vectorCandidate defaultThreshold c) ∧
    (∀ c : RChunk, hybridScore 1 c = 1 - c.dist) ∧
    (∀ c : RChunk, hybridScore 0 c = c.rank) ∧
    hybrid_search_chunks corpus k 0 =
      ((corpus.filter hybridCandidate).insertionSort
        (fun a b => a.rank ≥ b.rank)).take k := by
  refine ⟨?_, ?_, hybridScore_one, hybridScore_zero, ?_⟩
  · intro h
    unfold hybrid_search_chunks vector_search
    rw [List.filter_congr h]
    apply congrArg (List.take k)
    apply insertionSort_rel_congr
    intro a b
    rw [hybridScore_one, hybridScore_one]
    constructor
    · intro hh
      linarith
    · intro hh
      linarith
  · intro hk heq c hc
    unfold hybrid_search_chunks vector_search at heq
    rw [List.take_of_length_le, List.take_of_length_le] at heq
    · by_contra hne
      rcases Bool.eq_false_or_eq_true (hybridCandidate c) with hA | hA <;>
        rcases Bool.eq_false_or_eq_true (vectorCandidate defaultThreshold c)
          with hB | hB
      · exact hne (hA.trans hB.symm)
      · have hmem : c ∈ corpus.filter hybridCandidate :=
          List.mem_filter.mpr ⟨hc, hA⟩
        rw [← List.mem_insertionSort
            (fun a b => hybridScore 1 a ≥ hybridScore 1 b), heq,
          List.mem_insertionSort] at hmem
        have hB2 := (List.mem_filter.mp hmem).2
        rw [hB] at hB2
        cases hB2
      · have hmem : c ∈ corpus.filter (vectorCandidate defaultThreshold) :=
          List.mem_filter.mpr ⟨hc, hB⟩
        rw [← List.mem_insertionSort (fun a b => a.dist ≤ b.dist), ← heq,
          List.mem_insertionSort] at hmem
        have hA2 := (List.mem_filter.mp hmem).2
        rw [hA] at hA2
        cases hA2
      · exact hne (hA.trans hB.symm)
    · rw [List.length_insertionSort]
      exact le_trans (List.length_filter_le _ _) hk
    · rw [List.length_insertionSort]
      exact le_trans (List.length_filter_le _ _) hk
  · unfold hybrid_search_chunks
    apply congrArg (List.take k)
    apply insertionSort_rel_congr
    intro a b
    rw [hybridScore_zero, hybridScore_zero]

/-- C5 (witness): on a corpus where the two candidate filters agree, the
amended theorem yields identical hybrid (`alpha = 1`) and vector-search
results; and, the limit 10 covering the one-chunk corpus, the converse
direction recovers the filter agreement at that chunk. -/
theorem C5_alpha_extremes_witness :
    (hybrid_search_chunks [⟨1, true, 1/10, true, 2⟩] 10 1 =
      vector_search [⟨1, true, 1/10, true, 2⟩] 10 defaultThreshold) ∧
    hybridCandidate ⟨1, true, 1/10, true, 2⟩ =
      vectorCandidate defaultThreshold ⟨1, true, 1/10, true, 2⟩ := by
  have hagree : ∀ c ∈ [(⟨1, true, 1/10, true, 2⟩ : RChunk)],
      hybridCandidate c = vectorCandidate defaultThreshold c := by
    intro c hc
    simp only [List.mem_singleton] at hc
    subst hc
    simp only [hybridCandidate, vectorCandidate, defaultThreshold]
    norm_num
  have heq := (C5_alpha_extremes [⟨1, true, 1/10, true, 2⟩] 10).1 hagree
  exact ⟨heq,
    (C5_alpha_extremes [⟨1, true, 1/10, true, 2⟩] 10).2.1 (by norm_num) heq
      ⟨1, true, 1/10, true, 2⟩ (List.mem_singleton.mpr rfl)⟩

/-! ## C8: multi-document gather semantics -/

/-- C8: the per-document tasks are gathered with return-exceptions
semantics — the outcome list has one entry per document, each determined
by the run of that document alone, unaffected by siblings — the reported success
count is the number of non-exception outcomes, and the branch chain
raises an exception exactly when zero documents succeeded. -/
theorem C8_gather_aggregate {δ : Type} (docs : List δ)
    (run : δ → Except String Unit) :
    (∀ i : Nat, (gatherReturnExceptions docs run)[i]? = (docs[i]?).map run) ∧
    ((importAggregate (gatherReturnExceptions docs run)).2.isSome = true ↔
      successful_tasks (gatherReturnExceptions docs run) = 0) ∧
    (importAggregate (gatherReturnExceptions docs run)).1 =
      successful_tasks (gatherReturnExceptions docs run) := by
  refine ⟨?_, ?_, ?_⟩
  · intro i
    simp [gatherReturnExceptions]
  · generalize gatherReturnExceptions docs run = results
    simp only [importAggregate]
    split_ifs with h1 h2
    · simp
      omega
    · simp
      omega
    · have h0 : successful_tasks results = 0 := by omega
      split
      · simp [h0]
      · simp [h0]
  · generalize gatherReturnExceptions docs run = results
    simp only [importAggregate]
    split_ifs with h1 h2
    · rfl
    · rfl
    · split
      · rfl
      · rfl

/-! ## C9: stage-manager error attribution -/

/-- C9 (counterexample): the claim says every stage re-raises an
underlying component exception with the component name embedded in the
message.  The handler of the chunker stage is `raise e`: with the chunker
present in the registry and an underlying failure `"boom"`, the error
surfaces verbatim and does not contain the component name (the same holds
for the embedder, retriever and generator stages; only the reader wraps). -/
theorem C9_counterexample :
    chunker_chunk ["Token"] "Token" (.error "boom" : Except String Nat) =
      .error "boom" ∧
    containsSub "boom" "Token" = false := by
  constructor
  · rfl
  · decide

/-- C9 (amended): a component name absent from the registry yields, for
every stage, an error message that embeds the missing name (`"Reader {n}
failed with: Reader {n} not found"` for the reader, `"{n} <Stage> not
found"` for the others) and is surfaced to the caller; an exception raised
by the underlying component is re-raised with the component name embedded
only by the Reader stage — the Chunker, Embedder, Retriever and Generator
stages re-raise the underlying exception unchanged (`raise e`). -/
theorem C9_stage_errors {α : Type} :
    (∀ (reg : List String) (name : String) (r : Except String α),
      reg.contains name = false →
        reader_load reg name r =
          .error ("Reader " ++ name ++ " failed with: " ++
            ("Reader " ++ name ++ " not found")) ∧
        chunker_chunk reg name r = .error (name ++ " Chunker not found") ∧
        embedding_embed reg name r = .error (name ++ " Embedder not found") ∧
        retriever_retrieve reg name r = .error (name ++ " Retriever not found") ∧
        generator_generate reg name r = .error (name ++ " Generator not found")) ∧
    (∀ (reg : List String) (name m : String),
      reg.contains name = true →
        reader_load reg name (.error m : Except String α) =
          .error ("Reader " ++ name ++ " failed with: " ++ m) ∧
        chunker_chunk reg name (.error m : Except String α) = .error m ∧
        embedding_embed reg name (.error m : Except String α) = .error m ∧
        retriever_retrieve reg name (.error m : Except String α) = .error m ∧
        generator_generate reg name (.error m : Except String α) = .error m) ∧
    (∀ (reg : List String) (name : String) (x : α),
      reg.contains name = true → reader_load reg name (.ok x) = .ok x) := by
  refine ⟨?_, ?_, ?_⟩
  · intro reg name r hc
    have hm : name ∉ reg := by simpa using hc
    refine ⟨?_, ?_, ?_, ?_, ?_⟩ <;>
      simp [reader_load, chunker_chunk, embedding_embed, retriever_retrieve,
        generator_generate, hm]
  · intro reg name m hc
    have hm : name ∈ reg := by simpa using hc
    refine ⟨?_, ?_, ?_, ?_, ?_⟩ <;>
      simp [reader_load, chunker_chunk, embedding_embed, retriever_retrieve,
        generator_generate, hm]
  · intro reg name x hc
    have hm : name ∈ reg := by simpa using hc
    simp [reader_load, hm]

/-- C9 (witness): the amended theorem applied at a concrete registry — a
missing chunker name is reported by name, and the underlying failure of
a present chunker passes through unchanged. -/
theorem C9_stage_errors_witness :
    chunker_chunk ["Token"] "Sentence" (.ok (0 : Nat)) =
      .error ("Sentence" ++ " Chunker not found") ∧
    chunker_chunk ["Token"] "Token" (.error "kaboom" : Except String Nat) =
      .error "kaboom" ∧
    reader_load ["Token"] "Token" (.ok (0 : Nat)) = .ok 0 :=
  ⟨((C9_stage_errors (α := Nat)).1 ["Token"] "Sentence" (.ok 0)
      (by decide)).2.1,
    ((C9_stage_errors (α := Nat)).2.1 ["Token"] "Token" "kaboom"
      (by decide)).2.1,
    (C9_stage_errors (α := Nat)).2.2 ["Token"] "Token" 0 (by decide)⟩

/-- C6 (witness): the overwrite branch of the theorem applied to a
concrete store — after deleting the duplicate "Doc1" (uuid 0), the
surviving document row and the surviving chunk row (owned by the other
document) do not belong to uuid 0. -/
theorem C6_overwrite_witness :
    (⟨1, "Other", "x", [], "e"⟩ : DocRow).uuid ≠ 0 ∧
    (⟨7, 1, "c2", "c2", 0, 0, none, "e"⟩ : ChunkRow).document_uuid ≠ 0 := by
  have h := C6_overwrite_semantics
    ⟨[⟨0, "Doc1", "old", [], "e"⟩, ⟨1, "Other", "x", [], "e"⟩],
      [⟨5, 0, "c", "c", 0, 0, none, "e"⟩, ⟨7, 1, "c2", "c2", 0, 0, none, "e"⟩],
      [], 8⟩
    ⟨"Doc1", "new", [], []⟩ "e" "f.txt" true
  exact ⟨h.2.1 ⟨1, "Other", "x", [], "e"⟩ (by decide),
    h.2.2 ⟨7, 1, "c2", "c2", 0, 0, none, "e"⟩ (by decide)⟩
